import Mathlib

/-!
# Verification of the persona-gpt quota-and-extension lifecycle

A shallow embedding of the quota / extension-request subsystem of the
persona-gpt web application: the request ledger (`extension_manager.py`),
the approval ledger and quota engine (`app.py`, `get_max_queries_for_session`),
and the `/chat`, `/approve-extension` and `/deny-extension` endpoints
(`app.py`).

File I/O is modelled by explicit values: the request ledger
(`extension_requests.ndjson`) is a `List ExtensionRequest` in append order,
and the approvals file (`approved_extensions.json`) is an `ApprovalsFile`
that is either missing, unparseable, or a JSON object modelled as an
association list.  External collaborators (the e-mail regex, the input
sanitizer, the LLM classifier and completion call) are parameters of the
`chat` model, mirroring that the Python code treats them as opaque calls.
-/

set_option maxHeartbeats 1000000

namespace PersonaGPT

/-- Extension request record, mirroring the `ExtensionRequest` dataclass of
`extension_manager.py` (fields in source order; `status` is one of
`"pending"`, `"approved"`, `"denied"`). -/
structure ExtensionRequest where
  session_id : String
  email : String
  timestamp : String
  status : String
  queries_granted : Int := 0
  approved_at : Option String := none
  request_id : String := ""
deriving DecidableEq, Repr

/-- One entry of the `approved_extensions.json` object, mirroring the dict
written by `approve_extension` in `app.py`. -/
structure ApprovalGrant where
  queries_granted : Int
  approved_at : String
  request_id : String
  email : String
deriving DecidableEq, Repr

/-- The on-disk state of `approved_extensions.json`: absent, present but
unreadable/corrupt (any exception on load), or a parsed JSON object whose
keys are session ids (modelled as an association list in insertion order). -/
inductive ApprovalsFile where
  | missing
  | corrupt
  | ok (entries : List (String × ApprovalGrant))
deriving DecidableEq, Repr

/-- Python dict lookup `approvals[session_id]` (keys are unique because the
object is only built by keyed assignment). -/
def lookupGrant (entries : List (String × ApprovalGrant)) (sid : String) :
    Option ApprovalGrant :=
  match entries.find? (fun e => e.1 == sid) with
  | some e => some e.2
  | none => none

/-- Python dict assignment `approvals[session_id] = grant`: replaces the
binding when the key is present, otherwise appends it. -/
def upsertGrant (entries : List (String × ApprovalGrant)) (sid : String)
    (g : ApprovalGrant) : List (String × ApprovalGrant) :=
  if entries.any (fun e => e.1 == sid) then
    entries.map (fun e => if e.1 == sid then (sid, g) else e)
  else
    entries ++ [(sid, g)]

/-- `get_max_queries_for_session` from `app.py`: base limit plus the granted
queries when the approvals file parses and contains the session id; a
missing or corrupt file (the `except` branch) yields the base limit. -/
def get_max_queries_for_session (base : Int) (file : ApprovalsFile)
    (sid : String) : Int :=
  match file with
  | .ok entries =>
    match lookupGrant entries sid with
    | some g => base + g.queries_granted
    | none => base
  | _ => base

/-- `has_pending_request` from `extension_manager.py`: true iff some ledger
record has this session id and status `"pending"`. -/
def has_pending_request (ledger : List ExtensionRequest) (sid : String) : Bool :=
  ledger.any (fun r => r.session_id == sid && r.status == "pending")

/-- The record built by `create_request` in `extension_manager.py` (the
function then appends it to `extension_requests.ndjson`). -/
def create_request (sid email timestamp : String) (epochSeconds : Nat) :
    ExtensionRequest :=
  { session_id := sid
    email := email
    timestamp := timestamp
    status := "pending"
    queries_granted := 0
    approved_at := none
    request_id := sid ++ "_" ++ toString epochSeconds }

/-- `get_request_by_id` from `extension_manager.py`: first record with the
given `request_id`, scanning in file order. -/
def get_request_by_id (ledger : List ExtensionRequest) (rid : String) :
    Option ExtensionRequest :=
  ledger.find? (fun r => r.request_id == rid)

/-- The `for ... if ... : update; break` pattern of `approve_request` and
`deny_request`: rewrite the first record satisfying `p` with `f`, keep the
rest unchanged. -/
def updateFirst (p : ExtensionRequest → Bool)
    (f : ExtensionRequest → ExtensionRequest) :
    List ExtensionRequest → List ExtensionRequest
  | [] => []
  | r :: rest => if p r then f r :: rest else r :: updateFirst p f rest

/-- `approve_request` from `extension_manager.py`: set the first matching
record's status to `"approved"`, record the grant size and approval time,
and rewrite the file. -/
def approve_request (ledger : List ExtensionRequest) (rid : String) (qg : Int)
    (now : String) : List ExtensionRequest :=
  updateFirst (fun r => r.request_id == rid)
    (fun r => { r with status := "approved", queries_granted := qg,
                       approved_at := some now }) ledger

/-- `deny_request` from `extension_manager.py`: set the first matching
record's status to `"denied"` and its `approved_at` time. -/
def deny_request (ledger : List ExtensionRequest) (rid : String)
    (now : String) : List ExtensionRequest :=
  updateFirst (fun r => r.request_id == rid)
    (fun r => { r with status := "denied", approved_at := some now }) ledger

/-- The comparison used by `requests.sort(key=lambda r: r.timestamp,
reverse=True)`: `a` may stay before `b` iff `b`'s timestamp is at most
`a`'s (Python string comparison on ISO-8601 timestamps). -/
def newestFirst (a b : ExtensionRequest) : Bool :=
  decide (b.timestamp ≤ a.timestamp)

/-- `get_all_requests` from `extension_manager.py`: records passing the
status filter, stably sorted newest-first (Python `list.sort` is stable). -/
def get_all_requests (ledger : List ExtensionRequest) (status_filter : String) :
    List ExtensionRequest :=
  (ledger.filter
    (fun r => status_filter == "all" || r.status == status_filter)).mergeSort
    newestFirst

/-- `get_pending_requests` from `extension_manager.py`: pending records,
stably sorted newest-first. -/
def get_pending_requests (ledger : List ExtensionRequest) :
    List ExtensionRequest :=
  (ledger.filter (fun r => r.status == "pending")).mergeSort newestFirst

/-- Python `str.strip()` with no argument: remove leading and trailing
whitespace. -/
def pyStrip (s : String) : String :=
  ⟨((s.data.dropWhile Char.isWhitespace).reverse.dropWhile
      Char.isWhitespace).reverse⟩

/-- Outcome of the pre-LLM intent classification call in `/chat`:
`OUT_OF_SCOPE`, `IN_SCOPE`, or an exception (caught and treated as
in-scope). -/
inductive ClassifyResult where
  | outOfScope
  | inScope
  | failed
deriving DecidableEq, Repr

/-- The per-session Flask cookie state used by `/chat`: the opaque session
id, the `query_count` counter, and the client-side `extension_requested`
flag. -/
structure SessionState where
  session_id : String
  query_count : Int
  extension_requested : Bool
deriving DecidableEq, Repr

/-- Inputs of one `/chat` call that the endpoint treats as external: the
configured limits, the request body (`none` when the JSON is absent or has
no `message` field), and the opaque collaborators (`extract_email`,
`sanitize_input`'s pattern stripping, the classifier, the LLM call, the
canned refusal text, and the wall clock). -/
structure ChatEnv where
  base : Int
  maxLen : Nat
  body : Option String
  extractEmail : String → Option String
  sanitize : String → String
  classify : ClassifyResult
  llmResponse : Except String String
  refusal : String
  nowTimestamp : String
  nowEpoch : Nat

/-- The observable result of one `/chat` call: HTTP status, the `error` /
`message` / `response` JSON fields, the `extension_requested` response flag,
and the session and ledger states after the call. -/
structure ChatOutcome where
  httpStatus : Nat
  error : Option String
  message : Option String
  response : Option String
  extension_requested : Bool
  sess : SessionState
  ledger : List ExtensionRequest
deriving DecidableEq, Repr

/-- Wording returned when the session flag `extension_requested` is set
(line 258 of `app.py`). -/
def pendingReviewMessage : String :=
  "Your extension request is pending review. Please check back later."

/-- Wording inviting the user to send an e-mail address (line 260 of
`app.py`). -/
def limitReachedMessage (maxq : Int) : String :=
  "You have reached the maximum of " ++ toString maxq ++
    " questions for this session. To request more questions, send a message with your email address."

/-- Wording confirming a freshly created extension request (line 251 of
`app.py`). -/
def extensionReceivedMessage : String :=
  "Extension request received! We\x27ll review your request and may extend your session. Check back shortly."

/-- The default limit-reached response of `/chat` (no request created on
this call): wording chosen by the session's own `extension_requested`
flag. -/
def limitDefaultOutcome (sess : SessionState) (ledger : List ExtensionRequest)
    (maxq : Int) : ChatOutcome :=
  { httpStatus := 429
    error := some "limit_reached"
    message := some (if sess.extension_requested then pendingReviewMessage
                     else limitReachedMessage maxq)
    response := none
    extension_requested := false
    sess := sess
    ledger := ledger }

/-- A 400 validation rejection of `/chat`: no state is touched. -/
def validationErrorOutcome (e : String) (sess : SessionState)
    (ledger : List ExtensionRequest) : ChatOutcome :=
  { httpStatus := 400
    error := some e
    message := none
    response := none
    extension_requested := false
    sess := sess
    ledger := ledger }

/-- The `/chat` endpoint of `app.py` (lines 197-376).  The quota gate runs
first; at the limit the body is scanned for an e-mail and a pending-request
check guards ledger creation; under the limit the body is validated,
sanitized, length-checked, classified, and finally answered, with
`query_count` incremented on the filtered and answered paths only. -/
def chat (env : ChatEnv) (sess : SessionState) (ledger : List ExtensionRequest)
    (approvals : ApprovalsFile) : ChatOutcome :=
  let current := sess.query_count
  let maxq := get_max_queries_for_session env.base approvals sess.session_id
  if current ≥ maxq then
    match env.body with
    | some raw =>
      let userMessage := pyStrip raw
      match env.extractEmail userMessage with
      | some email =>
        if has_pending_request ledger sess.session_id then
          limitDefaultOutcome sess ledger maxq
        else
          let r := create_request sess.session_id email env.nowTimestamp
            env.nowEpoch
          { httpStatus := 429
            error := some "limit_reached"
            message := some extensionReceivedMessage
            response := none
            extension_requested := true
            sess := { sess with extension_requested := true }
            ledger := ledger ++ [r] }
      | none => limitDefaultOutcome sess ledger maxq
    | none => limitDefaultOutcome sess ledger maxq
  else
    match env.body with
    | none => validationErrorOutcome "No message provided" sess ledger
    | some raw =>
      let userMessage := pyStrip raw
      if userMessage == "" then
        validationErrorOutcome "Empty message" sess ledger
      else
        let sanitized := env.sanitize userMessage
        if sanitized == "" then
          validationErrorOutcome "Invalid message" sess ledger
        else if sanitized.length > env.maxLen then
          validationErrorOutcome "Message too long" sess ledger
        else
          match env.classify with
          | .outOfScope =>
            { httpStatus := 200
              error := none
              message := none
              response := some env.refusal
              extension_requested := false
              sess := { sess with query_count := sess.query_count + 1 }
              ledger := ledger }
          | _ =>
            match env.llmResponse with
            | .ok answer =>
              { httpStatus := 200
                error := none
                message := none
                response := some answer
                extension_requested := false
                sess := { sess with query_count := sess.query_count + 1 }
                ledger := ledger }
            | .error e =>
              { httpStatus := 500
                error := some "Failed to get response"
                message := some e
                response := none
                extension_requested := false
                sess := sess
                ledger := ledger }

/-- The observable result of an admin approve/deny call: HTTP status, the
`error` / `message` / `session_id` JSON fields, and the two ledgers after
the call. -/
structure AdminOutcome where
  httpStatus : Nat
  error : Option String
  message : Option String
  session_id : Option String
  ledger : List ExtensionRequest
  approvals : ApprovalsFile
deriving DecidableEq, Repr

/-- `if not ADMIN_RESET_KEY:` — the admin surface is configured iff the key
is present and non-empty. -/
def adminConfigured (adminKey : Option String) : Bool :=
  match adminKey with
  | none => false
  | some k => k != ""

/-- The `load-or-empty` read of `approved_extensions.json` performed by
`approve_extension`: a missing or corrupt file degrades to the empty
object. -/
def parsedApprovals (file : ApprovalsFile) : List (String × ApprovalGrant) :=
  match file with
  | .ok entries => entries
  | _ => []

/-- The `/approve-extension` endpoint of `app.py` (lines 573-625): key
checks, request lookup, ledger approval, and last-write-wins upsert of the
approvals file keyed by the request's session id.  `queries_granted_arg` is
the optional body field, defaulting to 10. -/
def approve_extension (adminKey : Option String) (key : String)
    (request_id : String) (queries_granted_arg : Option Int) (now : String)
    (ledger : List ExtensionRequest) (approvals : ApprovalsFile) :
    AdminOutcome :=
  if !adminConfigured adminKey then
    { httpStatus := 403
      error := some "Extension approval not configured"
      message := none
      session_id := none
      ledger := ledger
      approvals := approvals }
  else if adminKey ≠ some key then
    { httpStatus := 403
      error := some "Invalid key"
      message := none
      session_id := none
      ledger := ledger
      approvals := approvals }
  else
    let qg := queries_granted_arg.getD 10
    match get_request_by_id ledger request_id with
    | none =>
      { httpStatus := 404
        error := some "Request not found"
        message := none
        session_id := none
        ledger := ledger
        approvals := approvals }
    | some extReq =>
      let ledger2 := approve_request ledger request_id qg now
      let entries2 := upsertGrant (parsedApprovals approvals)
        extReq.session_id
        { queries_granted := qg
          approved_at := now
          request_id := request_id
          email := extReq.email }
      { httpStatus := 200
        error := none
        message := some ("Extension approved: " ++ toString qg ++
          " additional queries granted")
        session_id := some extReq.session_id
        ledger := ledger2
        approvals := .ok entries2 }

/-- The `/deny-extension` endpoint of `app.py` (lines 628-653): key checks,
request lookup, and ledger denial; the approvals file is never touched. -/
def deny_extension (adminKey : Option String) (key : String)
    (request_id : String) (now : String) (ledger : List ExtensionRequest)
    (approvals : ApprovalsFile) : AdminOutcome :=
  if !adminConfigured adminKey then
    { httpStatus := 403
      error := some "Extension denial not configured"
      message := none
      session_id := none
      ledger := ledger
      approvals := approvals }
  else if adminKey ≠ some key then
    { httpStatus := 403
      error := some "Invalid key"
      message := none
      session_id := none
      ledger := ledger
      approvals := approvals }
  else
    match get_request_by_id ledger request_id with
    | none =>
      { httpStatus := 404
        error := some "Request not found"
        message := none
        session_id := none
        ledger := ledger
        approvals := approvals }
    | some extReq =>
      { httpStatus := 200
        error := none
        message := some "Extension request denied"
        session_id := some extReq.session_id
        ledger := deny_request ledger request_id now
        approvals := approvals }

/-- Number of pending ledger records carrying a given session id. -/
def countPending (ledger : List ExtensionRequest) (sid : String) : Nat :=
  (ledger.filter (fun r => r.session_id == sid && r.status == "pending")).length

/-- The spec invariant "at most one record with status pending per
session_id", stated decidably over the session ids occurring in the
ledger. -/
def atMostOnePending (ledger : List ExtensionRequest) : Bool :=
  ledger.all (fun r => decide (countPending ledger r.session_id ≤ 1))

/-- Concrete chat environment used to evaluate the model on closed inputs:
base limit 20, a body carrying an e-mail address, and trivial collaborators. -/
def sampleEnv : ChatEnv :=
  { base := 20
    maxLen := 500
    body := some "reach me at a@b.com"
    extractEmail := fun s => if s == "reach me at a@b.com" then some "a@b.com"
                             else none
    sanitize := fun s => s
    classify := .inScope
    llmResponse := .ok "answer"
    refusal := "refusal"
    nowTimestamp := "2026-01-02T00:00:00"
    nowEpoch := 100 }

/-- Concrete session at the base limit of `sampleEnv`. -/
def sampleSession : SessionState :=
  { session_id := "s1", query_count := 20, extension_requested := false }

/-- Concrete denied ledger record for session `"s1"`. -/
def sampleDeniedRecord : ExtensionRequest :=
  { session_id := "s1"
    email := "a@b.com"
    timestamp := "2026-01-01T00:00:00"
    status := "denied"
    queries_granted := 0
    approved_at := some "2026-01-01T01:00:00"
    request_id := "s1_50" }

/-- Concrete pending ledger record for session `"s1"`. -/
def samplePendingRecord : ExtensionRequest :=
  { session_id := "s1"
    email := "a@b.com"
    timestamp := "2026-01-01T00:00:00"
    status := "pending"
    queries_granted := 0
    approved_at := none
    request_id := "s1_50" }

/-- Concrete approval grant of 5 queries for session `"s1"`. -/
def sampleGrant : ApprovalGrant :=
  { queries_granted := 5
    approved_at := "2026-01-01T02:00:00"
    request_id := "s1_50"
    email := "a@b.com" }

/-! ## Helper lemmas -/

theorem countPending_nil (sid : String) : countPending [] sid = 0 := rfl

theorem countPending_cons (r : ExtensionRequest) (l : List ExtensionRequest)
    (sid : String) :
    countPending (r :: l) sid =
      (if (r.session_id == sid && r.status == "pending") = true then 1 else 0)
        + countPending l sid := by
  simp only [countPending, List.filter_cons]
  split
  · simp
    omega
  · simp

theorem countPending_append_one (l : List ExtensionRequest)
    (r : ExtensionRequest) (sid : String) :
    countPending (l ++ [r]) sid =
      countPending l sid
        + (if (r.session_id == sid && r.status == "pending") = true then 1
           else 0) := by
  simp only [countPending, List.filter_append, List.length_append]
  simp only [List.filter_cons, List.filter_nil]
  split
  · simp
  · simp

theorem has_pending_request_eq_false_iff (l : List ExtensionRequest)
    (sid : String) :
    has_pending_request l sid = false ↔ countPending l sid = 0 := by
  simp only [has_pending_request, countPending, List.length_eq_zero,
    List.filter_eq_nil_iff]
  rw [← Bool.not_eq_true, List.any_eq_true]
  constructor
  · intro h r hr
    intro hc
    exact h ⟨r, hr, hc⟩
  · rintro h ⟨r, hr, hc⟩
    exact h r hr hc

theorem countPending_updateFirst_le (p : ExtensionRequest → Bool)
    (f : ExtensionRequest → ExtensionRequest)
    (hf : ∀ r, ((f r).status == "pending") = false)
    (l : List ExtensionRequest) (sid : String) :
    countPending (updateFirst p f l) sid ≤ countPending l sid := by
  induction l with
  | nil => simp [updateFirst]
  | cons r rest ih =>
    simp only [updateFirst]
    split
    · rw [countPending_cons, countPending_cons]
      have : (((f r).session_id == sid && (f r).status == "pending")) = false := by
        rw [hf r]; simp
      rw [this]
      simp only [if_neg (by simp : ¬ (false = true))]
      split <;> omega
    · rw [countPending_cons, countPending_cons]
      omega

theorem atMostOnePending_iff (l : List ExtensionRequest) :
    atMostOnePending l = true ↔ ∀ sid, countPending l sid ≤ 1 := by
  constructor
  · intro h sid
    rcases hf : l.filter
        (fun r => r.session_id == sid && r.status == "pending") with _ | ⟨r, rest⟩
    · simp [countPending, hf]
    · have hr : r ∈ l.filter (fun x => x.session_id == sid && x.status == "pending") := by
        rw [hf]; exact List.mem_cons_self r rest
      rw [List.mem_filter] at hr
      have hsid : r.session_id = sid := by
        have := hr.2
        simp only [Bool.and_eq_true, beq_iff_eq] at this
        exact this.1
      rw [atMostOnePending, List.all_eq_true] at h
      have := h r hr.1
      simp only [decide_eq_true_eq] at this
      rw [hsid] at this
      exact this
  · intro h
    rw [atMostOnePending, List.all_eq_true]
    intro r _
    simp only [decide_eq_true_eq]
    exact h r.session_id

theorem mem_updateFirst (p : ExtensionRequest → Bool)
    (f : ExtensionRequest → ExtensionRequest) (l : List ExtensionRequest)
    (r : ExtensionRequest) (h : r ∈ updateFirst p f l) :
    r ∈ l ∨ ∃ x ∈ l, p x = true ∧ r = f x := by
  induction l with
  | nil => simp [updateFirst] at h
  | cons x rest ih =>
    simp only [updateFirst] at h
    split at h
    · rcases List.mem_cons.1 h with h' | h'
      · right; exact ⟨x, List.mem_cons_self x rest, by assumption, h'⟩
      · left; exact List.mem_cons_of_mem x h'
    · rcases List.mem_cons.1 h with h' | h'
      · left; rw [h']; exact List.mem_cons_self x rest
      · rcases ih h' with h'' | ⟨y, hy, hpy, hry⟩
        · left; exact List.mem_cons_of_mem x h''
        · right; exact ⟨y, List.mem_cons_of_mem x hy, hpy, hry⟩

theorem updateFirst_mem_of_not_p (p : ExtensionRequest → Bool)
    (f : ExtensionRequest → ExtensionRequest) (l : List ExtensionRequest)
    (r : ExtensionRequest) (hr : r ∈ l) (hp : p r = false) :
    r ∈ updateFirst p f l := by
  induction l with
  | nil => simp at hr
  | cons x rest ih =>
    simp only [updateFirst]
    rcases List.mem_cons.1 hr with h' | h'
    · subst h'
      rw [hp]
      simp
    · split
      · exact List.mem_cons_of_mem _ h'
      · exact List.mem_cons_of_mem _ (ih h')

theorem length_updateFirst (p : ExtensionRequest → Bool)
    (f : ExtensionRequest → ExtensionRequest) (l : List ExtensionRequest) :
    (updateFirst p f l).length = l.length := by
  induction l with
  | nil => rfl
  | cons x rest ih =>
    simp only [updateFirst]
    split <;> simp [ih]

theorem find?_updateFirst (p : ExtensionRequest → Bool)
    (f : ExtensionRequest → ExtensionRequest)
    (hpf : ∀ r, p r = true → p (f r) = true)
    (l : List ExtensionRequest) (r : ExtensionRequest)
    (h : l.find? p = some r) :
    (updateFirst p f l).find? p = some (f r) := by
  induction l with
  | nil => simp at h
  | cons x rest ih =>
    by_cases hx : p x = true
    · rw [List.find?_cons_of_pos _ hx] at h
      injection h with h
      subst h
      simp only [updateFirst, if_pos hx]
      rw [List.find?_cons_of_pos _ (hpf x hx)]
    · have hx' : p x = false := by simpa using hx
      rw [List.find?_cons_of_neg _ hx] at h
      simp only [updateFirst, hx']
      rw [if_neg (by simp)]
      rw [List.find?_cons_of_neg _ hx]
      exact ih h

theorem lookupGrant_cons_self (sid : String) (g : ApprovalGrant)
    (rest : List (String × ApprovalGrant)) :
    lookupGrant ((sid, g) :: rest) sid = some g := by
  simp [lookupGrant, List.find?]

theorem lookupGrant_cons_of_ne (e : String × ApprovalGrant)
    (rest : List (String × ApprovalGrant)) (sid : String)
    (he : (e.1 == sid) = false) :
    lookupGrant (e :: rest) sid = lookupGrant rest sid := by
  simp only [lookupGrant, List.find?, he]

theorem lookupGrant_append_of_not_mem
    (entries : List (String × ApprovalGrant)) (sid : String)
    (g : ApprovalGrant)
    (h : entries.any (fun e => e.1 == sid) = false) :
    lookupGrant (entries ++ [(sid, g)]) sid = some g := by
  induction entries with
  | nil =>
    simp only [List.nil_append]
    exact lookupGrant_cons_self sid g []
  | cons e rest ih =>
    simp only [List.any_cons, Bool.or_eq_false_iff] at h
    rw [List.cons_append, lookupGrant_cons_of_ne e _ sid h.1]
    exact ih h.2

theorem lookupGrant_map_upsert (entries : List (String × ApprovalGrant))
    (sid : String) (g : ApprovalGrant)
    (hany : entries.any (fun e => e.1 == sid) = true) :
    lookupGrant (entries.map (fun e => if e.1 == sid then (sid, g) else e))
      sid = some g := by
  induction entries with
  | nil => simp at hany
  | cons e rest ih =>
    by_cases he : (e.1 == sid) = true
    · simp only [List.map_cons, if_pos he]
      exact lookupGrant_cons_self sid g _
    · have he' : (e.1 == sid) = false := by simpa using he
      simp only [List.any_cons, he', Bool.false_or] at hany
      simp only [List.map_cons, if_neg (by simp [he'] : ¬ (e.1 == sid) = true)]
      rw [lookupGrant_cons_of_ne e _ sid he']
      exact ih hany

theorem lookupGrant_upsertGrant_self
    (entries : List (String × ApprovalGrant)) (sid : String)
    (g : ApprovalGrant) :
    lookupGrant (upsertGrant entries sid g) sid = some g := by
  rw [upsertGrant]
  split
  · rename_i hany
    exact lookupGrant_map_upsert entries sid g hany
  · rename_i hany
    rw [Bool.not_eq_true] at hany
    exact lookupGrant_append_of_not_mem entries sid g hany

theorem chat_ledger_cases (env : ChatEnv) (sess : SessionState)
    (ledger : List ExtensionRequest) (approvals : ApprovalsFile) :
    (chat env sess ledger approvals).ledger = ledger ∨
    (has_pending_request ledger sess.session_id = false ∧
     ∃ email, (chat env sess ledger approvals).ledger =
       ledger ++ [create_request sess.session_id email env.nowTimestamp
         env.nowEpoch]) := by
  simp only [chat]
  split
  · split
    · split
      · split
        · left; simp [limitDefaultOutcome]
        · rename_i email heq2 hp
          right
          have hp' : has_pending_request ledger sess.session_id = false := by
            simpa using hp
          exact ⟨hp', email, by simp⟩
      · left; simp [limitDefaultOutcome]
    · left; simp [limitDefaultOutcome]
  · split
    · left; simp [validationErrorOutcome]
    · split
      · left; simp [validationErrorOutcome]
      · split
        · left; simp [validationErrorOutcome]
        · split
          · left; simp [validationErrorOutcome]
          · split
            · left; simp
            · split
              · left; simp
              · left; simp

theorem atMostOnePending_chat (env : ChatEnv) (sess : SessionState)
    (ledger : List ExtensionRequest) (approvals : ApprovalsFile)
    (h : atMostOnePending ledger = true) :
    atMostOnePending (chat env sess ledger approvals).ledger = true := by
  rcases chat_ledger_cases env sess ledger approvals with hc | ⟨hp, email, hc⟩
  · rw [hc]; exact h
  · rw [hc]
    rw [atMostOnePending_iff] at h ⊢
    intro sid
    rw [countPending_append_one]
    split
    · rename_i hmatch
      have hsid : sess.session_id = sid := by
        simp only [create_request, Bool.and_eq_true, beq_iff_eq] at hmatch
        exact hmatch.1
      have h0 : countPending ledger sid = 0 := by
        rw [← hsid]
        exact (has_pending_request_eq_false_iff ledger _).1 hp
      omega
    · have := h sid
      omega

theorem atMostOnePending_approve_request (l : List ExtensionRequest)
    (rid : String) (qg : Int) (now : String)
    (h : atMostOnePending l = true) :
    atMostOnePending (approve_request l rid qg now) = true := by
  rw [atMostOnePending_iff] at h ⊢
  intro sid
  refine le_trans (countPending_updateFirst_le _ _ ?_ l sid) (h sid)
  intro r
  rfl

theorem atMostOnePending_deny_request (l : List ExtensionRequest)
    (rid : String) (now : String)
    (h : atMostOnePending l = true) :
    atMostOnePending (deny_request l rid now) = true := by
  rw [atMostOnePending_iff] at h ⊢
  intro sid
  refine le_trans (countPending_updateFirst_le _ _ ?_ l sid) (h sid)
  intro r
  rfl

theorem chat_error_at_limit (env : ChatEnv) (sess : SessionState)
    (ledger : List ExtensionRequest) (approvals : ApprovalsFile)
    (h : sess.query_count ≥
      get_max_queries_for_session env.base approvals sess.session_id) :
    (chat env sess ledger approvals).error = some "limit_reached" ∧
    (chat env sess ledger approvals).httpStatus = 429 := by
  simp only [chat, if_pos h]
  split
  · split
    · split
      · simp [limitDefaultOutcome]
      · simp
    · simp [limitDefaultOutcome]
  · simp [limitDefaultOutcome]

theorem chat_error_under_limit (env : ChatEnv) (sess : SessionState)
    (ledger : List ExtensionRequest) (approvals : ApprovalsFile)
    (h : sess.query_count <
      get_max_queries_for_session env.base approvals sess.session_id) :
    (chat env sess ledger approvals).error ≠ some "limit_reached" := by
  have h' : ¬ (sess.query_count ≥
      get_max_queries_for_session env.base approvals sess.session_id) := by
    omega
  simp only [chat, if_neg h']
  split
  · simp [validationErrorOutcome]
  · split
    · simp [validationErrorOutcome]
    · split
      · simp [validationErrorOutcome]
      · split
        · simp [validationErrorOutcome]
        · split
          · simp
          · split
            · simp
            · simp

theorem approve_extension_success (k rid now : String) (hk : k ≠ "")
    (garg : Option Int) (ledger : List ExtensionRequest)
    (approvals : ApprovalsFile) (req : ExtensionRequest)
    (hfind : get_request_by_id ledger rid = some req) :
    approve_extension (some k) k rid garg now ledger approvals =
      { httpStatus := 200
        error := none
        message := some ("Extension approved: " ++ toString (garg.getD 10) ++
          " additional queries granted")
        session_id := some req.session_id
        ledger := approve_request ledger rid (garg.getD 10) now
        approvals := .ok (upsertGrant (parsedApprovals approvals)
          req.session_id
          { queries_granted := garg.getD 10
            approved_at := now
            request_id := rid
            email := req.email }) } := by
  have hconf : adminConfigured (some k) = true := by
    simp [adminConfigured, hk]
  simp only [approve_extension, hconf, Bool.not_true, Bool.false_eq_true,
    if_neg (by simp : ¬ (false = true))]
  rw [if_neg (by simp : ¬ (some k ≠ some k))]
  rw [hfind]
  simp

theorem deny_extension_success (k rid now : String) (hk : k ≠ "")
    (ledger : List ExtensionRequest) (approvals : ApprovalsFile)
    (req : ExtensionRequest)
    (hfind : get_request_by_id ledger rid = some req) :
    deny_extension (some k) k rid now ledger approvals =
      { httpStatus := 200
        error := none
        message := some "Extension request denied"
        session_id := some req.session_id
        ledger := deny_request ledger rid now
        approvals := approvals } := by
  have hconf : adminConfigured (some k) = true := by
    simp [adminConfigured, hk]
  simp only [deny_extension, hconf, Bool.not_true, Bool.false_eq_true,
    if_neg (by simp : ¬ (false = true))]
  rw [if_neg (by simp : ¬ (some k ≠ some k))]
  rw [hfind]
  simp

theorem get_request_by_id_approve_request (ledger : List ExtensionRequest)
    (rid : String) (qg : Int) (now : String) (req : ExtensionRequest)
    (hfind : get_request_by_id ledger rid = some req) :
    get_request_by_id (approve_request ledger rid qg now) rid =
      some { req with status := "approved", queries_granted := qg,
                      approved_at := some now } := by
  exact find?_updateFirst (fun r => r.request_id == rid)
    (fun r => { r with status := "approved", queries_granted := qg,
                       approved_at := some now })
    (fun r hr => hr) ledger req hfind

theorem get_request_by_id_deny_request (ledger : List ExtensionRequest)
    (rid : String) (now : String) (req : ExtensionRequest)
    (hfind : get_request_by_id ledger rid = some req) :
    get_request_by_id (deny_request ledger rid now) rid =
      some { req with status := "denied", approved_at := some now } := by
  exact find?_updateFirst (fun r => r.request_id == rid)
    (fun r => { r with status := "denied", approved_at := some now })
    (fun r hr => hr) ledger req hfind

/-! ## Claims -/

/-- C1: at the limit, a chat message containing an e-mail address creates a
new pending ledger record iff no record with that session id has status
`"pending"`; an existing pending request suppresses creation, while
denied or approved records do not block a fresh request; and every
mutating operation (chat, approve, deny) preserves the at-most-one-pending
invariant, so under sequential execution at most one pending record exists
per session id. -/
theorem chat_pending_request_unique
    (env : ChatEnv) (sess : SessionState) (ledger : List ExtensionRequest)
    (approvals : ApprovalsFile) (raw email : String)
    (hlim : sess.query_count ≥
      get_max_queries_for_session env.base approvals sess.session_id)
    (hbody : env.body = some raw)
    (hemail : env.extractEmail (pyStrip raw) = some email) :
    (has_pending_request ledger sess.session_id = true →
      (chat env sess ledger approvals).ledger = ledger) ∧
    (has_pending_request ledger sess.session_id = false →
      (chat env sess ledger approvals).ledger =
        ledger ++ [create_request sess.session_id email env.nowTimestamp
          env.nowEpoch] ∧
      (create_request sess.session_id email env.nowTimestamp
        env.nowEpoch).status = "pending" ∧
      (create_request sess.session_id email env.nowTimestamp
        env.nowEpoch).session_id = sess.session_id) ∧
    ((∀ r ∈ ledger, r.session_id = sess.session_id → r.status ≠ "pending") →
      has_pending_request ledger sess.session_id = false) ∧
    (∀ env2 sess2 l2 a2, atMostOnePending l2 = true →
      atMostOnePending (chat env2 sess2 l2 a2).ledger = true) ∧
    (∀ l2 rid qg now, atMostOnePending l2 = true →
      atMostOnePending (approve_request l2 rid qg now) = true) ∧
    (∀ l2 rid now, atMostOnePending l2 = true →
      atMostOnePending (deny_request l2 rid now) = true) := by
  refine ⟨?_, ?_, ?_, ?_, ?_, ?_⟩
  · intro hp
    simp only [chat, if_pos hlim, hbody, hemail, hp]
    simp [limitDefaultOutcome]
  · intro hp
    refine ⟨?_, rfl, rfl⟩
    simp only [chat, if_pos hlim, hbody, hemail, hp]
    simp
  · intro hall
    rw [← Bool.not_eq_true, has_pending_request, List.any_eq_true]
    rintro ⟨r, hr, hcond⟩
    simp only [Bool.and_eq_true, beq_iff_eq] at hcond
    exact hall r hr hcond.1 hcond.2
  · intro env2 sess2 l2 a2 h2
    exact atMostOnePending_chat env2 sess2 l2 a2 h2
  · intro l2 rid qg now h2
    exact atMostOnePending_approve_request l2 rid qg now h2
  · intro l2 rid now h2
    exact atMostOnePending_deny_request l2 rid now h2

/-- C1 witness: a session at its limit whose only ledger record is denied
does get a fresh pending request appended. -/
theorem chat_pending_request_unique_witness :
    (chat sampleEnv sampleSession [sampleDeniedRecord]
        ApprovalsFile.missing).ledger =
      [sampleDeniedRecord] ++ [create_request sampleSession.session_id
        "a@b.com" sampleEnv.nowTimestamp sampleEnv.nowEpoch] :=
  ((chat_pending_request_unique sampleEnv sampleSession [sampleDeniedRecord]
      ApprovalsFile.missing "reach me at a@b.com" "a@b.com" (by decide) rfl
      (by decide)).2.1 (by decide)).1

/-- C2: the effective limit equals the base limit plus the grant's
`queries_granted` when the approvals file has an entry for the session id,
and the base limit otherwise; a missing or corrupt approvals file degrades
to the base limit without failing; and a chat call is admitted (does not
return a limit-reached error) iff `query_count` is strictly below the
effective limit. -/
theorem effective_limit_correct (base : Int) (sid : String) :
    (∀ entries g, lookupGrant entries sid = some g →
      get_max_queries_for_session base (.ok entries) sid =
        base + g.queries_granted) ∧
    (∀ entries, lookupGrant entries sid = none →
      get_max_queries_for_session base (.ok entries) sid = base) ∧
    get_max_queries_for_session base .missing sid = base ∧
    get_max_queries_for_session base .corrupt sid = base ∧
    (∀ (env : ChatEnv) (sess : SessionState) (ledger : List ExtensionRequest)
       (approvals : ApprovalsFile),
      ((chat env sess ledger approvals).error ≠ some "limit_reached" ↔
        sess.query_count <
          get_max_queries_for_session env.base approvals sess.session_id)) := by
  refine ⟨?_, ?_, rfl, rfl, ?_⟩
  · intro entries g hg
    simp [get_max_queries_for_session, hg]
  · intro entries hg
    simp [get_max_queries_for_session, hg]
  · intro env sess ledger approvals
    constructor
    · intro herr
      by_contra hge
      exact herr (chat_error_at_limit env sess ledger approvals (by omega)).1
    · intro hlt
      exact chat_error_under_limit env sess ledger approvals hlt

/-- C2 witness: with a grant of 5 on file for session `"s1"`, the effective
limit is 25 on base 20. -/
theorem effective_limit_correct_witness :
    get_max_queries_for_session 20 (.ok [("s1", sampleGrant)]) "s1" = 25 :=
  (effective_limit_correct 20 "s1").1 [("s1", sampleGrant)] sampleGrant
    (by decide)

/-- C3: after a successful approval of request `rid` (session `S`) with `g`
granted queries, the ledger record has status `"approved"`, the grant size
and an approval time; the approval ledger maps `S` to that grant; the
effective limit of `S` is `base + g` for every base (independent of any
usage count); and a later successful approval for the same session
overwrites the grant, so the limit becomes `base + g2`, never
`base + g + g2`. -/
theorem approve_extension_grant (k rid now : String) (hk : k ≠ "") (g : Int)
    (ledger : List ExtensionRequest) (approvals : ApprovalsFile)
    (req : ExtensionRequest)
    (hfind : get_request_by_id ledger rid = some req) :
    (approve_extension (some k) k rid (some g) now ledger
      approvals).httpStatus = 200 ∧
    get_request_by_id (approve_extension (some k) k rid (some g) now ledger
        approvals).ledger rid =
      some { req with status := "approved", queries_granted := g,
                      approved_at := some now } ∧
    lookupGrant (parsedApprovals (approve_extension (some k) k rid (some g)
        now ledger approvals).approvals) req.session_id =
      some { queries_granted := g, approved_at := now, request_id := rid,
             email := req.email } ∧
    (∀ base, get_max_queries_for_session base
        (approve_extension (some k) k rid (some g) now ledger
          approvals).approvals req.session_id = base + g) ∧
    (∀ k2 rid2 now2 (g2 : Int) (ledger2 : List ExtensionRequest)
       (req2 : ExtensionRequest), k2 ≠ "" →
      get_request_by_id ledger2 rid2 = some req2 →
      req2.session_id = req.session_id →
      ∀ base, get_max_queries_for_session base
        (approve_extension (some k2) k2 rid2 (some g2) now2 ledger2
          (approve_extension (some k) k rid (some g) now ledger
            approvals).approvals).approvals req.session_id = base + g2) := by
  rw [approve_extension_success k rid now hk (some g) ledger approvals req
    hfind]
  refine ⟨rfl, ?_, ?_, ?_, ?_⟩
  · exact get_request_by_id_approve_request ledger rid g now req hfind
  · exact lookupGrant_upsertGrant_self _ _ _
  · intro base
    simp [get_max_queries_for_session, lookupGrant_upsertGrant_self]
  · intro k2 rid2 now2 g2 ledger2 req2 hk2 hfind2 hsid base
    rw [approve_extension_success k2 rid2 now2 hk2 (some g2) ledger2 _ req2
      hfind2]
    simp [get_max_queries_for_session, parsedApprovals, hsid,
      lookupGrant_upsertGrant_self]

/-- C3 witness: approving the sample pending request with 5 queries makes
the effective limit 25 on base 20. -/
theorem approve_extension_grant_witness :
    get_max_queries_for_session 20
      (approve_extension (some "adm") "adm" "s1_50" (some 5)
        "2026-01-03T00:00:00" [samplePendingRecord]
        ApprovalsFile.missing).approvals "s1" = 25 :=
  (approve_extension_grant "adm" "s1_50" "2026-01-03T00:00:00" (by decide) 5
    [samplePendingRecord] ApprovalsFile.missing samplePendingRecord
    (by decide)).2.2.2.1 20

/-- C5: a successful denial of request `rid` sets that ledger record's
status to `"denied"` and its `approved_at` time, leaving the record's other
fields intact, every other record untouched (same length, membership of
non-matching records preserved both ways), the approvals file unwritten,
and every session's effective limit unchanged. -/
theorem deny_extension_frame (k rid now : String) (hk : k ≠ "")
    (ledger : List ExtensionRequest) (approvals : ApprovalsFile)
    (req : ExtensionRequest)
    (hfind : get_request_by_id ledger rid = some req) :
    (deny_extension (some k) k rid now ledger approvals).httpStatus = 200 ∧
    (deny_extension (some k) k rid now ledger approvals).approvals =
      approvals ∧
    (∀ base sid, get_max_queries_for_session base
        (deny_extension (some k) k rid now ledger approvals).approvals sid =
      get_max_queries_for_session base approvals sid) ∧
    get_request_by_id (deny_extension (some k) k rid now ledger
        approvals).ledger rid =
      some { req with status := "denied", approved_at := some now } ∧
    (deny_extension (some k) k rid now ledger approvals).ledger.length =
      ledger.length ∧
    (∀ r ∈ ledger, r.request_id ≠ rid →
      r ∈ (deny_extension (some k) k rid now ledger approvals).ledger) ∧
    (∀ r ∈ (deny_extension (some k) k rid now ledger approvals).ledger,
      r.request_id ≠ rid → r ∈ ledger) := by
  rw [deny_extension_success k rid now hk ledger approvals req hfind]
  refine ⟨rfl, rfl, fun base sid => rfl, ?_, ?_, ?_, ?_⟩
  · exact get_request_by_id_deny_request ledger rid now req hfind
  · exact length_updateFirst _ _ ledger
  · intro r hr hne
    refine updateFirst_mem_of_not_p _ _ ledger r hr ?_
    simpa using hne
  · intro r hr hne
    rcases mem_updateFirst _ _ ledger r hr with h | ⟨x, hx, hpx, hrx⟩
    · exact h
    · exfalso
      apply hne
      rw [hrx]
      simpa using hpx

/-- C5 witness: denying the sample pending request leaves the effective
limit at the base 20. -/
theorem deny_extension_frame_witness :
    get_max_queries_for_session 20
      (deny_extension (some "adm") "adm" "s1_50" "2026-01-03T00:00:00"
        [samplePendingRecord] ApprovalsFile.missing).approvals "s1" =
      get_max_queries_for_session 20 ApprovalsFile.missing "s1" :=
  (deny_extension_frame "adm" "s1_50" "2026-01-03T00:00:00" (by decide)
    [samplePendingRecord] ApprovalsFile.missing samplePendingRecord
    (by decide)).2.2.1 20 "s1"

/-- C6: `get_all_requests` with filter `"all"` returns exactly the written
records (a permutation, all fields equal) sorted newest-first by timestamp,
and every status-filtered listing (`get_all_requests`,
`get_pending_requests`) returns the records it selects in the same
newest-first order. -/
theorem ledger_roundtrip (ledger : List ExtensionRequest) :
    (get_all_requests ledger "all").Perm ledger ∧
    List.Pairwise (fun a b => newestFirst a b = true)
      (get_all_requests ledger "all") ∧
    (∀ sf, (get_all_requests ledger sf).Perm
        (ledger.filter (fun r => sf == "all" || r.status == sf)) ∧
      List.Pairwise (fun a b => newestFirst a b = true)
        (get_all_requests ledger sf)) ∧
    (get_pending_requests ledger).Perm
      (ledger.filter (fun r => r.status == "pending")) ∧
    List.Pairwise (fun a b => newestFirst a b = true)
      (get_pending_requests ledger) := by
  have htrans : ∀ a b c : ExtensionRequest, newestFirst a b = true →
      newestFirst b c = true → newestFirst a c = true := by
    intro a b c hab hbc
    simp only [newestFirst, decide_eq_true_eq] at *
    exact le_trans hbc hab
  have htotal : ∀ a b : ExtensionRequest,
      (newestFirst a b || newestFirst b a) = true := by
    intro a b
    simp only [newestFirst, Bool.or_eq_true, decide_eq_true_eq]
    exact le_total b.timestamp a.timestamp
  have hfilter : ledger.filter
      (fun r => ("all" : String) == "all" || r.status == "all") = ledger := by
    simp
  refine ⟨?_, ?_, ?_, ?_, ?_⟩
  · rw [get_all_requests, hfilter]
    exact List.mergeSort_perm ledger newestFirst
  · exact List.sorted_mergeSort htrans htotal _
  · intro sf
    exact ⟨List.mergeSort_perm _ newestFirst,
      List.sorted_mergeSort htrans htotal _⟩
  · exact List.mergeSort_perm _ newestFirst
  · exact List.sorted_mergeSort htrans htotal _

/-- C7: under the limit, an admitted call that the classifier filters as
out-of-scope increments `query_count` by exactly one, just like an admitted
in-scope call; calls rejected for a missing message field, an empty
message, a message emptied by sanitization, or an over-length message leave
`query_count` unchanged. -/
theorem chat_count_semantics (env : ChatEnv) (sess : SessionState)
    (ledger : List ExtensionRequest) (approvals : ApprovalsFile)
    (hunder : sess.query_count <
      get_max_queries_for_session env.base approvals sess.session_id) :
    (env.body = none →
      (chat env sess ledger approvals).sess.query_count =
        sess.query_count) ∧
    (∀ raw, env.body = some raw → pyStrip raw = "" →
      (chat env sess ledger approvals).sess.query_count =
        sess.query_count) ∧
    (∀ raw, env.body = some raw → pyStrip raw ≠ "" →
      env.sanitize (pyStrip raw) = "" →
      (chat env sess ledger approvals).sess.query_count =
        sess.query_count) ∧
    (∀ raw, env.body = some raw → pyStrip raw ≠ "" →
      env.sanitize (pyStrip raw) ≠ "" →
      (env.sanitize (pyStrip raw)).length > env.maxLen →
      (chat env sess ledger approvals).sess.query_count =
        sess.query_count) ∧
    (∀ raw, env.body = some raw → pyStrip raw ≠ "" →
      env.sanitize (pyStrip raw) ≠ "" →
      ¬ (env.sanitize (pyStrip raw)).length > env.maxLen →
      env.classify = .outOfScope →
      (chat env sess ledger approvals).sess.query_count =
        sess.query_count + 1) ∧
    (∀ raw answer, env.body = some raw → pyStrip raw ≠ "" →
      env.sanitize (pyStrip raw) ≠ "" →
      ¬ (env.sanitize (pyStrip raw)).length > env.maxLen →
      env.classify = .inScope → env.llmResponse = .ok answer →
      (chat env sess ledger approvals).sess.query_count =
        sess.query_count + 1) := by
  have h' : ¬ (sess.query_count ≥
      get_max_queries_for_session env.base approvals sess.session_id) := by
    omega
  refine ⟨?_, ?_, ?_, ?_, ?_, ?_⟩
  · intro hb
    simp [chat, h', hb, validationErrorOutcome]
  · intro raw hb hstrip
    simp [chat, h', hb, hstrip, validationErrorOutcome]
  · intro raw hb hne hsan
    simp [chat, h', hb, hne, hsan, validationErrorOutcome]
  · intro raw hb hne hsanne hlen
    simp [chat, h', hb, hne, hsanne, hlen, validationErrorOutcome]
  · intro raw hb hne hsanne hlen hclass
    simp [chat, h', hb, hne, hsanne, hlen, hclass]
  · intro raw answer hb hne hsanne hlen hclass hllm
    simp [chat, h', hb, hne, hsanne, hlen, hclass, hllm]

/-- C7 witness: an out-of-scope call from a session at count 3 leaves the
session at count 4. -/
theorem chat_count_semantics_witness :
    (chat
      { sampleEnv with
        body := some "what about the weather"
        classify := .outOfScope }
      { sampleSession with query_count := 3 } [] ApprovalsFile.missing
      ).sess.query_count = 4 :=
  (chat_count_semantics
    { sampleEnv with
      body := some "what about the weather"
      classify := .outOfScope }
    { sampleSession with query_count := 3 } [] ApprovalsFile.missing
    (by decide)).2.2.2.2.1 "what about the weather" rfl (by decide)
    (by decide) (by decide) rfl

/-- C8: for approval and denial, a missing or empty configured admin secret
rejects with a not-configured error regardless of the supplied key; with a
configured secret, a key differing by exact string comparison rejects with
an invalid-key error; an unknown request id rejects with request-not-found;
and in each error case the outcome carries the two ledgers back
unchanged. -/
theorem admin_auth_errors :
    (∀ key rid garg now (l : List ExtensionRequest) (a : ApprovalsFile),
      approve_extension none key rid garg now l a =
        { httpStatus := 403
          error := some "Extension approval not configured"
          message := none
          session_id := none
          ledger := l
          approvals := a }) ∧
    (∀ key rid garg now (l : List ExtensionRequest) (a : ApprovalsFile),
      approve_extension (some "") key rid garg now l a =
        { httpStatus := 403
          error := some "Extension approval not configured"
          message := none
          session_id := none
          ledger := l
          approvals := a }) ∧
    (∀ k key rid garg now (l : List ExtensionRequest) (a : ApprovalsFile),
      k ≠ "" → key ≠ k →
      approve_extension (some k) key rid garg now l a =
        { httpStatus := 403
          error := some "Invalid key"
          message := none
          session_id := none
          ledger := l
          approvals := a }) ∧
    (∀ k rid garg now (l : List ExtensionRequest) (a : ApprovalsFile),
      k ≠ "" → get_request_by_id l rid = none →
      approve_extension (some k) k rid garg now l a =
        { httpStatus := 404
          error := some "Request not found"
          message := none
          session_id := none
          ledger := l
          approvals := a }) ∧
    (∀ key rid now (l : List ExtensionRequest) (a : ApprovalsFile),
      deny_extension none key rid now l a =
        { httpStatus := 403
          error := some "Extension denial not configured"
          message := none
          session_id := none
          ledger := l
          approvals := a }) ∧
    (∀ key rid now (l : List ExtensionRequest) (a : ApprovalsFile),
      deny_extension (some "") key rid now l a =
        { httpStatus := 403
          error := some "Extension denial not configured"
          message := none
          session_id := none
          ledger := l
          approvals := a }) ∧
    (∀ k key rid now (l : List ExtensionRequest) (a : ApprovalsFile),
      k ≠ "" → key ≠ k →
      deny_extension (some k) key rid now l a =
        { httpStatus := 403
          error := some "Invalid key"
          message := none
          session_id := none
          ledger := l
          approvals := a }) ∧
    (∀ k rid now (l : List ExtensionRequest) (a : ApprovalsFile),
      k ≠ "" → get_request_by_id l rid = none →
      deny_extension (some k) k rid now l a =
        { httpStatus := 404
          error := some "Request not found"
          message := none
          session_id := none
          ledger := l
          approvals := a }) := by
  refine ⟨?_, ?_, ?_, ?_, ?_, ?_, ?_, ?_⟩
  · intro key rid garg now l a
    simp [approve_extension, adminConfigured]
  · intro key rid garg now l a
    simp [approve_extension, adminConfigured]
  · intro k key rid garg now l a hk hkey
    have hkey2 : ¬ (k = key) := fun h => hkey h.symm
    simp [approve_extension, adminConfigured, hk, hkey2]
  · intro k rid garg now l a hk hfind
    simp [approve_extension, adminConfigured, hk, hfind]
  · intro key rid now l a
    simp [deny_extension, adminConfigured]
  · intro key rid now l a
    simp [deny_extension, adminConfigured]
  · intro k key rid now l a hk hkey
    have hkey2 : ¬ (k = key) := fun h => hkey h.symm
    simp [deny_extension, adminConfigured, hk, hkey2]
  · intro k rid now l a hk hfind
    simp [deny_extension, adminConfigured, hk, hfind]

/-- C8 witness: a wrong key against a configured secret is rejected with an
invalid-key error and leaves both ledgers unchanged. -/
theorem admin_auth_errors_witness :
    approve_extension (some "adm") "bad" "s1_50" none "t"
      [samplePendingRecord] ApprovalsFile.missing =
      { httpStatus := 403
        error := some "Invalid key"
        message := none
        session_id := none
        ledger := [samplePendingRecord]
        approvals := ApprovalsFile.missing } :=
  admin_auth_errors.2.2.1 "adm" "bad" "s1_50" none "t" [samplePendingRecord]
    ApprovalsFile.missing (by decide) (by decide)

/-- C9: an approval call whose body omits `queries_granted` behaves exactly
as if 10 had been supplied: the two calls produce identical outcomes, and
on success both the ledger record and the approval-ledger grant record 10
granted queries. -/
theorem approve_extension_default_ten :
    (∀ adminKey key rid now (l : List ExtensionRequest) (a : ApprovalsFile),
      approve_extension adminKey key rid none now l a =
        approve_extension adminKey key rid (some 10) now l a) ∧
    (∀ k rid now (l : List ExtensionRequest) (a : ApprovalsFile)
       (req : ExtensionRequest), k ≠ "" →
      get_request_by_id l rid = some req →
      get_request_by_id
          (approve_extension (some k) k rid none now l a).ledger rid =
        some { req with status := "approved", queries_granted := 10,
                        approved_at := some now } ∧
      lookupGrant (parsedApprovals
          (approve_extension (some k) k rid none now l a).approvals)
          req.session_id =
        some { queries_granted := 10, approved_at := now, request_id := rid,
               email := req.email }) := by
  refine ⟨?_, ?_⟩
  · intro adminKey key rid now l a
    rfl
  · intro k rid now l a req hk hfind
    rw [approve_extension_success k rid now hk none l a req hfind]
    constructor
    · exact get_request_by_id_approve_request l rid 10 now req hfind
    · exact lookupGrant_upsertGrant_self _ _ _

/-- C9 witness: approving the sample pending request with no
`queries_granted` field stores a grant of 10. -/
theorem approve_extension_default_ten_witness :
    lookupGrant (parsedApprovals
        (approve_extension (some "adm") "adm" "s1_50" none "t"
          [samplePendingRecord] ApprovalsFile.missing).approvals) "s1" =
      some { queries_granted := 10
             approved_at := "t"
             request_id := "s1_50"
             email := "a@b.com" } :=
  (approve_extension_default_ten.2 "adm" "s1_50" "t" [samplePendingRecord]
    ApprovalsFile.missing samplePendingRecord (by decide) (by decide)).2

/-- C10: the quota gate runs before input validation: a session at its
limit always receives HTTP 429 with error `limit_reached`, even when the
body is absent or the message is empty, whereas an under-limit session with
those same bodies receives the 400 validation errors. -/
theorem quota_check_precedes_validation (env : ChatEnv) (sess : SessionState)
    (ledger : List ExtensionRequest) (approvals : ApprovalsFile)
    (hlim : sess.query_count ≥
      get_max_queries_for_session env.base approvals sess.session_id) :
    (chat env sess ledger approvals).httpStatus = 429 ∧
    (chat env sess ledger approvals).error = some "limit_reached" ∧
    (∀ (env2 : ChatEnv) (sess2 : SessionState)
       (l2 : List ExtensionRequest) (a2 : ApprovalsFile),
      sess2.query_count <
        get_max_queries_for_session env2.base a2 sess2.session_id →
      (env2.body = none →
        chat env2 sess2 l2 a2 =
          validationErrorOutcome "No message provided" sess2 l2) ∧
      (∀ raw, env2.body = some raw → pyStrip raw = "" →
        chat env2 sess2 l2 a2 =
          validationErrorOutcome "Empty message" sess2 l2)) := by
  refine ⟨(chat_error_at_limit env sess ledger approvals hlim).2,
          (chat_error_at_limit env sess ledger approvals hlim).1, ?_⟩
  intro env2 sess2 l2 a2 hlt
  have h' : ¬ (sess2.query_count ≥
      get_max_queries_for_session env2.base a2 sess2.session_id) := by
    omega
  constructor
  · intro hb
    simp [chat, h', hb]
  · intro raw hb hstrip
    simp [chat, h', hb, hstrip]

/-- C10 witness: a session at the base limit sending no body at all gets
HTTP 429, not a validation error. -/
theorem quota_check_precedes_validation_witness :
    (chat { sampleEnv with body := none } sampleSession []
      ApprovalsFile.missing).httpStatus = 429 :=
  (quota_check_precedes_validation { sampleEnv with body := none }
    sampleSession [] ApprovalsFile.missing (by decide)).1

theorem limitReachedMessage_ne_pending (maxq : Int) :
    limitReachedMessage maxq ≠ pendingReviewMessage := by
  intro h
  have h4 := congrArg (fun s => s.data.take 4) h
  simp only [limitReachedMessage, pendingReviewMessage, String.data_append]
    at h4
  rw [List.append_assoc,
    List.take_append_of_le_length (by decide :
      (4:Nat) ≤ ("You have reached the maximum of ").data.length)] at h4
  exact absurd h4 (by decide)

/-- C4 counterexample: a session whose only ledger record is denied but
whose client-side flag is still set gets the pending-review wording even
though no pending request exists in the ledger, refuting the claim that
the wording tracks the ledger. -/
theorem chat_limit_message_counterexample :
    (chat
      { sampleEnv with
        body := some "hello"
        extractEmail := fun _ => none }
      { sampleSession with extension_requested := true }
      [sampleDeniedRecord] ApprovalsFile.missing).message =
      some pendingReviewMessage ∧
    has_pending_request [sampleDeniedRecord] "s1" = false := by
  constructor
  · decide
  · decide

/-- C4 (amended): for every at-limit chat call that does not create a new
extension request, the limit message is the pending-review wording iff the
session's own `extension_requested` flag is set (the code keys the wording
on the client-session flag, not on the ledger), and with the flag clear it
is the wording inviting the user to send an e-mail address. -/
theorem chat_limit_message_amended (env : ChatEnv) (sess : SessionState)
    (ledger : List ExtensionRequest) (approvals : ApprovalsFile)
    (hlim : sess.query_count ≥
      get_max_queries_for_session env.base approvals sess.session_id)
    (hnew : ∀ raw email, env.body = some raw →
      env.extractEmail (pyStrip raw) = some email →
      has_pending_request ledger sess.session_id = true) :
    ((chat env sess ledger approvals).message = some pendingReviewMessage ↔
      sess.extension_requested = true) ∧
    (sess.extension_requested = false →
      (chat env sess ledger approvals).message =
        some (limitReachedMessage
          (get_max_queries_for_session env.base approvals
            sess.session_id))) := by
  have hout : chat env sess ledger approvals =
      limitDefaultOutcome sess ledger
        (get_max_queries_for_session env.base approvals sess.session_id) := by
    rcases hb : env.body with _ | raw
    · simp [chat, if_pos hlim, hb]
    · rcases he : env.extractEmail (pyStrip raw) with _ | email
      · simp [chat, if_pos hlim, hb, he]
      · have hp := hnew raw email hb he
        simp [chat, if_pos hlim, hb, he, hp]
  rw [hout]
  cases hflag : sess.extension_requested with
  | false =>
    refine ⟨⟨?_, ?_⟩, ?_⟩
    · intro hm
      exfalso
      simp only [limitDefaultOutcome, hflag, Bool.false_eq_true, if_neg
        (by simp : ¬ (False : Prop)), Option.some.injEq] at hm
      exact limitReachedMessage_ne_pending _ hm
    · intro h
      cases h
    · intro _
      simp [limitDefaultOutcome, hflag]
  | true =>
    refine ⟨⟨fun _ => rfl, fun _ => ?_⟩, fun h => by cases h⟩
    simp [limitDefaultOutcome, hflag]

/-- C4 (amended) witness: with the flag set and a pending request on file,
the message is the pending-review wording. -/
theorem chat_limit_message_amended_witness :
    (chat
      { sampleEnv with
        body := some "hello"
        extractEmail := fun _ => none }
      { sampleSession with extension_requested := true }
      [samplePendingRecord] ApprovalsFile.missing).message =
      some pendingReviewMessage :=
  (chat_limit_message_amended
    { sampleEnv with
      body := some "hello"
      extractEmail := fun _ => none }
    { sampleSession with extension_requested := true }
    [samplePendingRecord] ApprovalsFile.missing (by decide)
    (fun _ _ _ _ => by decide)).1.mpr rfl

end PersonaGPT
